import Mathlib

/-!
Verification of the resumable ingestion task orchestrator of the rag-api
repository, as a shallow embedding in Lean 4.

The embedding mirrors the Python/SQL sources:
  * `apps/ingest/task_store.py` — the task and item store (one task with its
    item list; each store function is one atomic SQL statement, modelled as a
    pure state transition on `TaskDb`);
  * `apps/ingest/store.py` — the document store over the relational tables
    `documents`, `segments` and `segment_embeddings` (modelled as `DocStore`;
    `uuid4` key generation is modelled as a fresh-id counter `nextId`);
  * `apps/ingest/cli.py` — the orchestrator loop `_run_ingest_task` and the
    item pipeline `ingest_pdf`, with the external collaborators (filesystem,
    extraction + chunking + sanitization, embeddings client) supplied as
    oracles in an environment record;
  * `apps/ingest/extract_output.py` — the chunk output writer.

SQL `now()` is an explicit `now : Nat` argument; timestamps are `Option Nat`
and `last_error` columns are `Option String` (NULL = `none`).
-/

namespace RagIngest

/-- Item status column of `ingest_task_items` (check constraint in
`core/schema.py`). -/
inductive ItemStatus
  | pending
  | running
  | completed
  | failed
  | skipped
deriving DecidableEq, Repr

/-- Task status column of `ingest_tasks` (check constraint in
`core/schema.py`). -/
inductive TaskStatus
  | pending
  | running
  | completed
  | failed
  | interrupted
deriving DecidableEq, Repr

/-- `PipelineMode = Literal["full", "extract_only"]` from `task_store.py`. -/
inductive PipelineMode
  | full
  | extract_only
deriving DecidableEq, Repr

/-- `InputMode = Literal["pdf", "chunks"]` from `task_store.py`. -/
inductive InputMode
  | pdf
  | chunks
deriving DecidableEq, Repr

/-- `RunStrategy = Literal["fail", "skip"]` from `task_store.py`. -/
inductive RunStrategy
  | fail
  | skip
deriving DecidableEq, Repr

/-- One row of `ingest_task_items` (uuid keys modelled as `Nat`). -/
structure IngestTaskItem where
  id : Nat
  ordinal : Nat
  source_path : String
  status : ItemStatus
  attempt : Nat
  started_at : Option Nat
  finished_at : Option Nat
  heartbeat_at : Option Nat
  last_error : Option String
deriving DecidableEq, Repr

/-- One row of `ingest_tasks` (the columns the orchestrator reads/writes). -/
structure IngestTask where
  pipeline_mode : PipelineMode
  input_mode : InputMode
  error_strategy : RunStrategy
  chunking_strategy : String
  extract_output_dir : Option String
  force : Bool
  status : TaskStatus
  started_at : Option Nat
  finished_at : Option Nat
  heartbeat_at : Option Nat
  last_error : Option String
deriving DecidableEq, Repr

/-- The task-store state for one ingest task: the task row and its item rows
(all `ingest_task_items` rows with this `task_id`). -/
structure TaskDb where
  task : IngestTask
  items : List IngestTaskItem
deriving DecidableEq, Repr

/-- The `set` clause of the claiming update in `claim_next_ingest_task_item`:
`status='running', attempt = attempt + 1, started_at=now(), finished_at=null,
heartbeat_at=now(), last_error=null`. -/
def claimItem (it : IngestTaskItem) (now : Nat) : IngestTaskItem :=
  { it with
    status := .running
    attempt := it.attempt + 1
    started_at := some now
    finished_at := none
    heartbeat_at := some now
    last_error := none }

/-- `where task_id = ... and status = 'pending'` of the claiming CTE. -/
def pendingItems (items : List IngestTaskItem) : List IngestTaskItem :=
  items.filter (fun i => decide (i.status = .pending))

/-- `order by ordinal limit 1`: a row of minimal ordinal. The store enforces
`unique(task_id, ordinal)`, so the minimum is unique whenever ordinals are
distinct. -/
def minByOrdinal : List IngestTaskItem → Option IngestTaskItem
  | [] => none
  | i :: rest =>
    match minByOrdinal rest with
    | none => some i
    | some b => if i.ordinal ≤ b.ordinal then some i else some b

/-- `claim_next_ingest_task_item` of `task_store.py`: one atomic statement
that selects the lowest-ordinal pending item, marks it running and returns
it, or returns nothing when no pending item exists. -/
def claim_next_ingest_task_item (db : TaskDb) (now : Nat) :
    Option IngestTaskItem × TaskDb :=
  match minByOrdinal (pendingItems db.items) with
  | none => (none, db)
  | some it =>
    let it' := claimItem it now
    (some it',
     { db with items := db.items.map (fun j => if j.id = it.id then it' else j) })

/-- `touch_ingest_task` of `task_store.py`. -/
def touch_ingest_task (db : TaskDb) (now : Nat) : TaskDb :=
  { db with task := { db.task with heartbeat_at := some now } }

/-- `touch_ingest_task_item` of `task_store.py`. -/
def touch_ingest_task_item (db : TaskDb) (task_item_id : Nat) (now : Nat) : TaskDb :=
  { db with items := db.items.map (fun it =>
      if it.id = task_item_id then { it with heartbeat_at := some now } else it) }

/-- `mark_ingest_task_item_completed`: update guarded by
`where id = ... and status = 'running'`. -/
def mark_ingest_task_item_completed (db : TaskDb) (task_item_id : Nat) (now : Nat) :
    TaskDb :=
  { db with items := db.items.map (fun it =>
      if it.id = task_item_id ∧ it.status = .running then
        { it with
          status := .completed
          finished_at := some now
          heartbeat_at := some now
          last_error := none }
      else it) }

/-- `mark_ingest_task_item_failed`: update guarded by
`where id = ... and status = 'running'`. -/
def mark_ingest_task_item_failed (db : TaskDb) (task_item_id : Nat) (error : String)
    (now : Nat) : TaskDb :=
  { db with items := db.items.map (fun it =>
      if it.id = task_item_id ∧ it.status = .running then
        { it with
          status := .failed
          finished_at := some now
          heartbeat_at := some now
          last_error := some error }
      else it) }

/-- `mark_ingest_task_item_skipped`: update guarded by
`where id = ... and status = 'running'`. -/
def mark_ingest_task_item_skipped (db : TaskDb) (task_item_id : Nat) (error : String)
    (now : Nat) : TaskDb :=
  { db with items := db.items.map (fun it =>
      if it.id = task_item_id ∧ it.status = .running then
        { it with
          status := .skipped
          finished_at := some now
          heartbeat_at := some now
          last_error := some error }
      else it) }

/-- `mark_ingest_task_failed` of `task_store.py`. -/
def mark_ingest_task_failed (db : TaskDb) (error : String) (now : Nat) : TaskDb :=
  { db with task := { db.task with
      status := .failed
      finished_at := some now
      heartbeat_at := some now
      last_error := some error } }

/-- `mark_ingest_task_interrupted` of `task_store.py`: running items go back
to pending with an interruption marker, then the task is marked interrupted. -/
def mark_ingest_task_interrupted (db : TaskDb) (error : String) (now : Nat) : TaskDb :=
  { task := { db.task with
      status := .interrupted
      finished_at := some now
      heartbeat_at := some now
      last_error := some error }
    items := db.items.map (fun it =>
      if it.status = .running then
        { it with
          status := .pending
          finished_at := none
          heartbeat_at := some now
          last_error := some (it.last_error.getD "Interrupted while processing") }
      else it) }

/-- The two `not exists` subqueries of `mark_ingest_task_completed_if_done`:
no item is pending or running, and no item is failed. -/
def ingestTaskDone (items : List IngestTaskItem) : Bool :=
  !(items.any (fun i => decide (i.status = .pending) || decide (i.status = .running)))
    && !(items.any (fun i => decide (i.status = .failed)))

/-- `mark_ingest_task_completed_if_done` of `task_store.py`: guarded update
returning whether a row was updated. -/
def mark_ingest_task_completed_if_done (db : TaskDb) (now : Nat) : Bool × TaskDb :=
  if db.task.status = .running ∧ ingestTaskDone db.items = true then
    (true,
     { db with task := { db.task with
         status := .completed
         finished_at := some now
         heartbeat_at := some now
         last_error := none } })
  else
    (false, db)

/-- The item recovery update of `prepare_ingest_task_run`:
`set status='pending', finished_at=null, heartbeat_at=now(),
last_error=coalesce(last_error, 'Recovered for retry')
where status in ('running', 'failed')`. -/
def recoverItem (now : Nat) (it : IngestTaskItem) : IngestTaskItem :=
  if it.status = .running ∨ it.status = .failed then
    { it with
      status := .pending
      finished_at := none
      heartbeat_at := some now
      last_error := some (it.last_error.getD "Recovered for retry") }
  else it

/-- Python truthiness of an optional string (`None` and `""` are falsy). -/
def optTruthy : Option String → Bool
  | none => false
  | some s => !(decide (s = ""))

/-- `prepare_ingest_task_run` of `task_store.py`. The rejection checks run
before any update statement, mirroring the source order; an `error` result
therefore corresponds to a run in which no task or item row was written. -/
def prepare_ingest_task_run (db : TaskDb) (error_strategy : RunStrategy)
    (force : Bool) (expected_pipeline_mode : Option PipelineMode)
    (expected_input_mode : Option InputMode) (extract_output_dir : Option String)
    (now : Nat) : Except String TaskDb :=
  if db.task.status = .completed then
    .error "Ingest task is already completed"
  else if expected_pipeline_mode.elim false
      (fun m => !(decide (m = db.task.pipeline_mode))) then
    .error "Ingest task mode mismatch"
  else if expected_input_mode.elim false
      (fun m => !(decide (m = db.task.input_mode))) then
    .error "Ingest task input mismatch"
  else if expected_pipeline_mode = some .extract_only
      ∧ optTruthy extract_output_dir = true
      ∧ ((db.task.extract_output_dir.getD "") ≠ ""
         ∧ some (db.task.extract_output_dir.getD "") ≠ extract_output_dir) then
    .error "Ingest task output mismatch"
  else
    .ok
      { task := { db.task with
          status := .running
          started_at := some (db.task.started_at.getD now)
          finished_at := none
          heartbeat_at := some now
          error_strategy := error_strategy
          force := force
          extract_output_dir := db.task.extract_output_dir.orElse
            (fun _ => extract_output_dir)
          last_error := none }
        items := db.items.map (recoverItem now) }

/-- A chunk of text (`core/chunking/protocol.py`). -/
structure Chunk where
  page : Option Int
  ordinal : Int
  content : String
deriving DecidableEq, Repr

/-- One row of the `documents` table (uuid keys modelled as `Nat`). -/
structure DocRow where
  id : Nat
  source_path : String
  title : String
  sha256 : String
deriving DecidableEq, Repr

/-- One row of the `segments` table. -/
structure SegmentRow where
  id : Nat
  document_id : Nat
  ordinal : Int
  page : Option Int
  content : String
deriving DecidableEq, Repr

/-- One row of the `segment_embeddings` table. The vector payload is opaque
to every property proved here; it is modelled as a list of integers. -/
structure EmbeddingRow where
  segment_id : Nat
  embedding : List Int
deriving DecidableEq, Repr

/-- The document-store state (`documents`, `segments`, `segment_embeddings`).
`nextId` models the supply of fresh `uuid4` keys: freshly generated keys are
taken sequentially from `nextId`, so well-formed states keep every stored id
below `nextId`. -/
structure DocStore where
  documents : List DocRow
  segments : List SegmentRow
  segmentEmbeddings : List EmbeddingRow
  nextId : Nat
deriving DecidableEq, Repr

/-- `delete from documents where id = ...` together with the
`on delete cascade` clauses of `segments` and `segment_embeddings` declared
in `core/schema.py`. -/
def deleteDocumentCascade (db : DocStore) (docId : Nat) : DocStore :=
  let deadSegIds := (db.segments.filter (fun s => decide (s.document_id = docId))).map
    (fun s => s.id)
  { documents := db.documents.filter (fun d => !(decide (d.id = docId)))
    segments := db.segments.filter (fun s => !(decide (s.document_id = docId)))
    segmentEmbeddings := db.segmentEmbeddings.filter
      (fun e => !(deadSegIds.contains e.segment_id))
    nextId := db.nextId }

/-- Segment rows inserted by `replace_document_content`: one per chunk, with
fresh sequential ids starting at `nid`. -/
def buildSegmentRows (documentId : Nat) : Nat → List Chunk → List SegmentRow
  | _, [] => []
  | nid, c :: rest =>
    ⟨nid, documentId, c.ordinal, c.page, c.content⟩ ::
      buildSegmentRows documentId (nid + 1) rest

/-- Embedding rows inserted by `replace_document_content`: segment ids are
zipped with the embedding vectors in order. -/
def buildEmbeddingRows : Nat → List (List Int) → List EmbeddingRow
  | _, [] => []
  | nid, v :: rest => ⟨nid, v⟩ :: buildEmbeddingRows (nid + 1) rest

/-- The lookup-then-delete prefix of the `replace_document_content`
transaction: find the document row for the source path and delete it
(cascading) when present. -/
def deleteForPath (db : DocStore) (source_path : String) : DocStore :=
  match db.documents.find? (fun d => decide (d.source_path = source_path)) with
  | some row => deleteDocumentCascade db row.id
  | none => db

/-- Well-formedness of a document store: every stored key is below the
fresh-id counter (uuid freshness) and source paths are unique, as enforced by
the `documents_source_path_idx` unique index of `core/schema.py`. -/
def DocStore.WF (db : DocStore) : Prop :=
  (∀ d ∈ db.documents, d.id < db.nextId)
  ∧ (∀ s ∈ db.segments, s.id < db.nextId ∧ s.document_id < db.nextId)
  ∧ (∀ e ∈ db.segmentEmbeddings, e.segment_id < db.nextId)
  ∧ (db.documents.map (fun d => d.source_path)).Nodup

/-- `replace_document_content` of `store.py`: precondition checks first (the
Python function raises before any database work), then one transaction that
deletes the existing document for the source path (cascading) and inserts the
document, its segment rows and its embedding rows. -/
def replace_document_content (db : DocStore) (source_path title sha256 : String)
    (chunks : List Chunk) (embeddings : List (List Int)) :
    Except String (Nat × DocStore) :=
  if chunks.isEmpty then
    .error "Cannot persist a document without chunks."
  else if !(decide (chunks.length = embeddings.length)) then
    .error "Chunks and embeddings count mismatch."
  else
    let db0 := deleteForPath db source_path
    let documentId := db0.nextId
    let segRows := buildSegmentRows documentId (db0.nextId + 1) chunks
    let embRows := buildEmbeddingRows (db0.nextId + 1) embeddings
    .ok (documentId,
      { documents := db0.documents ++ [⟨documentId, source_path, title, sha256⟩]
        segments := db0.segments ++ segRows
        segmentEmbeddings := db0.segmentEmbeddings ++ embRows
        nextId := db0.nextId + 1 + chunks.length })

/-- `DocumentSyncState` of `store.py`. -/
structure DocumentSyncState where
  document_id : Nat
  sha256 : String
  segment_count : Nat
  embedding_count : Nat
deriving DecidableEq, Repr

/-- `select count(*) from segments s where s.document_id = d.id`. -/
def segmentCountFor (db : DocStore) (docId : Nat) : Nat :=
  (db.segments.filter (fun s => decide (s.document_id = docId))).length

/-- `select count(*) from segment_embeddings se join segments s on
s.id = se.segment_id where s.document_id = d.id`: the cardinality of the
join, one term per embedding row. -/
def embeddingCountFor (db : DocStore) (docId : Nat) : Nat :=
  (db.segmentEmbeddings.map (fun e =>
    (db.segments.filter
      (fun s => decide (s.id = e.segment_id) && decide (s.document_id = docId))).length)).sum

/-- `get_document_sync_state` of `store.py`. -/
def get_document_sync_state (db : DocStore) (source_path : String) :
    Option DocumentSyncState :=
  (db.documents.find? (fun d => decide (d.source_path = source_path))).map
    (fun d => ⟨d.id, d.sha256, segmentCountFor db d.id, embeddingCountFor db d.id⟩)

/-- `is_document_up_to_date` of `store.py`. -/
def is_document_up_to_date (db : DocStore) (source_path sha256 : String) : Bool :=
  match get_document_sync_state db source_path with
  | none => false
  | some st =>
    if st.sha256 ≠ sha256 then false
    else decide (0 < st.segment_count) && decide (st.segment_count = st.embedding_count)

/-- The duck-typed capabilities of the object `cli.py` passes as the
document-store handle. `core.db.Db.connect()` returns a psycopg connection
exposing `cursor(...)` (used by `fetch_one`/`execute`) and `Db` also has
`connect_tx()`; `core.qdrant.Qdrant.connect()` returns a `QdrantClient`
with no `cursor` attribute, and `Qdrant` has no `connect_tx` at all. -/
structure StoreHandle where
  connect_cursor : Bool
  connect_tx : Bool
deriving DecidableEq, Repr

/-- The handle behaviour of a real `core.db.Db`. -/
def dbHandle : StoreHandle := ⟨true, true⟩

/-- The handle behaviour of the `core.qdrant.Qdrant` wrapper — the object
`cli.py` actually passes to `ingest_pdf` and `_embed_and_store`. -/
def qdrantHandle : StoreHandle := ⟨false, false⟩

/-- `is_document_up_to_date` as called from `cli.py` with a store handle:
`get_document_sync_state` opens `db.connect()` and `fetch_one` immediately
calls `conn.cursor(...)`, so a handle whose connection lacks the psycopg
cursor interface raises `AttributeError` before any row is read; otherwise
the SQL semantics of `store.py` apply. -/
def is_document_up_to_date_call (h : StoreHandle) (db : DocStore)
    (source_path sha256 : String) : Except String Bool :=
  if h.connect_cursor then .ok (is_document_up_to_date db source_path sha256)
  else .error "AttributeError: QdrantClient object has no attribute cursor"

/-- `replace_document_content` as called from `_embed_and_store` with a
store handle: the two precondition raises of `store.py` precede
`db.connect_tx()`, so they fire for any handle; a handle without
`connect_tx` then raises `AttributeError` before the transaction opens;
otherwise the transaction of `store.py` runs. -/
def replace_document_content_call (h : StoreHandle) (db : DocStore)
    (source_path title sha256 : String) (chunks : List Chunk)
    (embeddings : List (List Int)) : Except String (Nat × DocStore) :=
  if chunks.isEmpty then
    .error "Cannot persist a document without chunks."
  else if !(decide (chunks.length = embeddings.length)) then
    .error "Chunks and embeddings count mismatch."
  else if !h.connect_tx then
    .error "AttributeError: Qdrant object has no attribute connect_tx"
  else
    replace_document_content db source_path title sha256 chunks embeddings

/-- One record of a `*.chunks.jsonl` extract output file
(`write_extract_output` in `extract_output.py`). -/
structure ExtractRecord where
  source_path : String
  source_sha256 : String
  chunking_strategy : String
  ordinal : Int
  page : Option Int
  content : String
deriving DecidableEq, Repr

/-- The records written by `write_extract_output` of `extract_output.py`: one
line per chunk, each carrying the source path, the source fingerprint and the
chunking strategy. -/
def write_extract_output (pdf_path source_sha256 chunking_strategy : String)
    (chunks : List Chunk) : List ExtractRecord :=
  chunks.map (fun c =>
    ⟨pdf_path, source_sha256, chunking_strategy, c.ordinal, c.page, c.content⟩)

/-- The keyword-only parameter list of `write_extract_output` as defined in
`extract_output.py` (none has a default value). -/
def write_extract_output_param_names : List String :=
  ["output_path", "pdf_path", "source_sha256", "chunking_strategy", "chunks"]

/-- The keyword-argument names `ingest_pdf` in `cli.py` passes to
`write_extract_output`. -/
def ingest_pdf_write_call_kwargs : List String :=
  ["output_path", "pdf_path", "source_sha256", "chunking_strategy", "chunks",
   "raw_contents"]

/-- Python keyword-argument binding for a function whose parameters are all
keyword-only without defaults: the call binds successfully exactly when the
supplied names are the declared names. An unexpected keyword raises
`TypeError` before the function body runs. -/
def kwargsBindOk (params args : List String) : Bool :=
  args.all (fun a => params.contains a) && params.all (fun p => args.contains p)

/-- Pipeline outcome literals of `ingest_pdf` in `cli.py`. -/
inductive Outcome
  | indexed
  | extracted
  | up_to_date
deriving DecidableEq, Repr

/-- External collaborators of one `ingest_pdf` call, supplied as oracles:
the file identity (`sha256_file`), the extraction + chunking + sanitization
result (`_extract_chunks`), the extract-output freshness probe
(`is_extract_output_up_to_date` on the output path), the embeddings client
and the `INGEST_EMBED_BATCH_SIZE` environment setting. -/
structure PdfEnv where
  source_path : String
  file_name : String
  file_hash : String
  chunking_strategy : String
  sanitized_chunks : List Chunk
  extract_output_up_to_date : Bool
  lm_present : Bool
  embed : List String → Except String (List (List Int))
  batch_size_env : Option Int

/-- The batch-size normalization of `_embed_and_store`: unset or unparsable
gives 128, and a non-positive value is coerced to 128. -/
def resolveBatchSize : Option Int → Nat
  | none => 128
  | some n => if n ≤ 0 then 128 else n.toNat

/-- The batched embedding loop of `_embed_and_store`, compiled with an
explicit fuel equal to the number of texts: slices of `bs` texts are sent in
order and the returned vectors concatenated. Every iteration consumes at
least one text (the Python loop always runs with a positive batch size, see
`resolveBatchSize`), so the fuel-exhausted arm is unreachable. -/
def embedBatchesAux (embed : List String → Except String (List (List Int)))
    (bs : Nat) : Nat → List String → Except String (List (List Int))
  | _, [] => .ok []
  | 0, _ :: _ => .error "unreachable: embedding batch loop fuel exhausted"
  | fuel + 1, texts =>
    match embed (texts.take (max 1 bs)) with
    | .error e => .error e
    | .ok part =>
      match embedBatchesAux embed bs fuel (texts.drop (max 1 bs)) with
      | .error e => .error e
      | .ok rest => .ok (part ++ rest)

/-- See `embedBatchesAux`. -/
def embedBatches (embed : List String → Except String (List (List Int)))
    (bs : Nat) (texts : List String) : Except String (List (List Int)) :=
  embedBatchesAux embed bs texts.length texts

/-- `_embed_and_store` of `cli.py`: require an embeddings client, embed in
batches, enforce the chunk/embedding count equality, then replace the
document content through the store handle the caller supplied (`cli.py`
passes the `qdrant` wrapper); the only success outcome is `indexed`. -/
def embed_and_store (h : StoreHandle) (env : PdfEnv) (db : DocStore)
    (chunks : List Chunk) : Except String (Outcome × DocStore) :=
  if !env.lm_present then
    .error "Embeddings client is required for full ingest mode."
  else
    match embedBatches env.embed (resolveBatchSize env.batch_size_env)
        (chunks.map (fun c => c.content)) with
    | .error e => .error e
    | .ok embeddings =>
      if !(decide (embeddings.length = chunks.length)) then
        .error ("Embedding count mismatch for " ++ env.source_path)
      else
        match replace_document_content_call h db env.source_path env.file_name
            env.file_hash chunks embeddings with
        | .error e => .error e
        | .ok (_, db1) => .ok (.indexed, db1)

/-- Result of one `ingest_pdf` call: the outcome literal, the document store
afterwards, and the extract-output records written (extract-only mode). -/
structure IngestPdfResult where
  outcome : Outcome
  docDb : DocStore
  written : Option (List ExtractRecord)
deriving Repr

/-- The tail of the full-mode branch of `ingest_pdf`, reached when the
up-to-date short circuit does not fire: extraction-result check, then
`_embed_and_store`. -/
def ingest_pdf_full_tail (h : StoreHandle) (env : PdfEnv) (db : DocStore) :
    Except String IngestPdfResult :=
  if env.sanitized_chunks.isEmpty then
    .error ("No chunks extracted after sanitization: " ++ env.source_path)
  else
    match embed_and_store h env db env.sanitized_chunks with
    | .error e => .error e
    | .ok (o, db1) => .ok ⟨o, db1, none⟩

/-- `ingest_pdf` of `cli.py`, parameterized by the document-store handle the
caller passes as first argument (`cli.py` passes the `core.qdrant.Qdrant`
wrapper, `qdrantHandle`). In `extract_only` mode the call to
`write_extract_output` passes the keyword argument `raw_contents`, which the
function in `extract_output.py` does not declare, so Python keyword binding
fails with a `TypeError` before anything is written; the embedding models
the binding check explicitly via `kwargsBindOk`. In `full` mode the
`not force and is_document_up_to_date(...)` conjunction short-circuits, so
the store probe runs only when `force` is false, mirroring Python `and`. -/
def ingest_pdf (h : StoreHandle) (env : PdfEnv) (db : DocStore) (force : Bool)
    (pipeline_mode : PipelineMode) (extract_output_dir : Option String) :
    Except String IngestPdfResult :=
  match pipeline_mode with
  | .extract_only =>
    match extract_output_dir with
    | none => .error "Extract output directory is required in extract-only mode."
    | some _ =>
      if !force && env.extract_output_up_to_date then
        .ok ⟨.up_to_date, db, none⟩
      else if env.sanitized_chunks.isEmpty then
        .error ("No chunks extracted after sanitization: " ++ env.source_path)
      else if kwargsBindOk write_extract_output_param_names
          ingest_pdf_write_call_kwargs then
        .ok ⟨.extracted, db,
          some (write_extract_output env.source_path env.file_hash
            env.chunking_strategy env.sanitized_chunks)⟩
      else
        .error "TypeError: write_extract_output got an unexpected keyword argument raw_contents"
  | .full =>
    if force then ingest_pdf_full_tail h env db
    else
      match is_document_up_to_date_call h db env.source_path env.file_hash with
      | .error e => .error e
      | .ok b =>
        if b then .ok ⟨.up_to_date, db, none⟩
        else ingest_pdf_full_tail h env db

/-- `_exception_text` of `cli.py`: the stripped exception message, the
exception class name when the message is empty, truncated to 2000
characters. -/
structure PyExc where
  message : String
  className : String

/-- See `PyExc`. -/
def exception_text (e : PyExc) : String :=
  let m := e.message.trim
  (if m = "" then e.className else m).take 2000

/-- Outcome of running the selected pipeline for one claimed item: a normal
outcome or a raised exception. -/
inductive ProcResult
  | ok (outcome : Outcome)
  | err (e : PyExc)

/-- External collaborators of the orchestrator loop `_run_ingest_task`:
the filesystem probe `Path.is_file` and the per-item pipeline
(`ingest_pdf` / `ingest_chunks_jsonl` with all their collaborators). -/
structure RunEnv where
  fileExists : String → Bool
  process : IngestTaskItem → ProcResult

/-- The missing-source error text of `_run_ingest_task`. -/
def notFoundError (input_mode : InputMode) (path : String) : String :=
  (match input_mode with
   | .pdf => "PDF"
   | .chunks => "Chunks file") ++ " not found: " ++ path

/-- Result of one iteration of the `_run_ingest_task` loop body. -/
inductive StepResult
  | drained (db : TaskDb)
  | continued (db : TaskDb)
  | halted (db : TaskDb) (error : String)

/-- One iteration of the `while True` body of `_run_ingest_task` in `cli.py`:
heartbeat the task, claim the next item; when the queue is drained evaluate
completion and stop; otherwise handle a missing file or run the pipeline, and
record the outcome under the task error strategy. -/
def run_ingest_task_step (env : RunEnv) (input_mode : InputMode)
    (error_strategy : RunStrategy) (now : Nat) (db : TaskDb) : StepResult :=
  let db0 := touch_ingest_task db now
  match claim_next_ingest_task_item db0 now with
  | (none, db1) => .drained (mark_ingest_task_completed_if_done db1 now).2
  | (some item, db1) =>
    if !(env.fileExists item.source_path) then
      let error := notFoundError input_mode item.source_path
      match error_strategy with
      | .skip => .continued (mark_ingest_task_item_skipped db1 item.id error now)
      | .fail =>
        .halted
          (mark_ingest_task_failed
            (mark_ingest_task_item_failed db1 item.id error now) error now)
          error
    else
      match env.process item with
      | .ok _ => .continued (mark_ingest_task_item_completed db1 item.id now)
      | .err e =>
        let error := exception_text e
        match error_strategy with
        | .skip => .continued (mark_ingest_task_item_skipped db1 item.id error now)
        | .fail =>
          .halted
            (mark_ingest_task_failed
              (mark_ingest_task_item_failed db1 item.id error now) error now)
            error

/-- The `_run_ingest_task` loop, fuel-bounded: iterate the step until the
queue drains (normal return) or a `fail`-strategy failure stops the run (the
exception propagates to the caller, returned here as the second component). -/
def run_ingest_task (env : RunEnv) (input_mode : InputMode)
    (error_strategy : RunStrategy) (now : Nat) :
    Nat → TaskDb → TaskDb × Option String
  | 0, db => (db, none)
  | fuel + 1, db =>
    match run_ingest_task_step env input_mode error_strategy now db with
    | .drained db1 => (db1, none)
    | .continued db1 => run_ingest_task env input_mode error_strategy now fuel db1
    | .halted db1 e => (db1, some e)

/-! ## Concrete states and environments used by the witness theorems -/

/-- Base task row reused by the concrete witness states. -/
def wTask : IngestTask :=
  { pipeline_mode := .full
    input_mode := .pdf
    error_strategy := .fail
    chunking_strategy := "recursive"
    extract_output_dir := none
    force := false
    status := .running
    started_at := some 1
    finished_at := none
    heartbeat_at := some 1
    last_error := none }

/-- Witness state for C2: one completed item and one pending item. -/
def c2db : TaskDb :=
  { task := wTask
    items := [
      { id := 1, ordinal := 0, source_path := "a.pdf", status := .completed,
        attempt := 1, started_at := some 1, finished_at := some 2,
        heartbeat_at := some 2, last_error := none },
      { id := 2, ordinal := 1, source_path := "b.pdf", status := .pending,
        attempt := 0, started_at := none, finished_at := none,
        heartbeat_at := none, last_error := none }] }

/-- Witness state for C3: every item completed or skipped, task running. -/
def c3db : TaskDb :=
  { task := wTask
    items := [
      { id := 1, ordinal := 0, source_path := "a.pdf", status := .completed,
        attempt := 1, started_at := some 1, finished_at := some 2,
        heartbeat_at := some 2, last_error := none },
      { id := 2, ordinal := 1, source_path := "b.pdf", status := .skipped,
        attempt := 1, started_at := some 1, finished_at := some 2,
        heartbeat_at := some 2, last_error := some "PDF not found: b.pdf" }] }

/-- Witness state for C10: one completed item, one pending item. -/
def c10db : TaskDb :=
  { task := wTask
    items := [
      { id := 1, ordinal := 0, source_path := "a.pdf", status := .completed,
        attempt := 2, started_at := some 1, finished_at := some 2,
        heartbeat_at := some 2, last_error := none },
      { id := 2, ordinal := 1, source_path := "b.pdf", status := .pending,
        attempt := 0, started_at := none, finished_at := none,
        heartbeat_at := none, last_error := none }] }

/-- The crash-recovery item of the C6 witness: running, mid-flight, no
stored error. -/
def c6item1 : IngestTaskItem :=
  { id := 1, ordinal := 0, source_path := "a.pdf", status := .running,
    attempt := 3, started_at := some 2, finished_at := none,
    heartbeat_at := some 2, last_error := none }

/-- Witness state for C6: an interrupted task with one mid-flight running
item and one completed item. -/
def c6db : TaskDb :=
  { task := { wTask with status := .interrupted, last_error := some "Interrupted" }
    items := [
      c6item1,
      { id := 2, ordinal := 1, source_path := "b.pdf", status := .completed,
        attempt := 1, started_at := some 1, finished_at := some 2,
        heartbeat_at := some 2, last_error := none }] }

/-- The state produced by resuming `c6db`. -/
def c6dbAfter : TaskDb :=
  match prepare_ingest_task_run c6db .fail false none none none 7 with
  | .ok d => d
  | .error _ => c6db

/-- Witness state for C8: a completed full-mode task. -/
def c8db : TaskDb :=
  { task := { wTask with status := .completed }
    items := [
      { id := 1, ordinal := 0, source_path := "a.pdf", status := .completed,
        attempt := 1, started_at := some 1, finished_at := some 2,
        heartbeat_at := some 2, last_error := none }] }

/-- Witness state for C8 mode mismatch: a running full-mode task resumed as
extract-only. -/
def c8dbRunning : TaskDb :=
  { task := wTask
    items := [
      { id := 1, ordinal := 0, source_path := "a.pdf", status := .pending,
        attempt := 0, started_at := none, finished_at := none,
        heartbeat_at := none, last_error := none }] }

/-- Witness exception for C7. -/
def c7e : PyExc := ⟨"boom", "RuntimeError"⟩

/-- Witness environment for C7: every source file exists and every pipeline
run raises `c7e`. -/
def c7env : RunEnv :=
  { fileExists := fun _ => true
    process := fun _ => .err c7e }

/-- Witness state for C7: one pending item. -/
def c7db : TaskDb :=
  { task := wTask
    items := [
      { id := 1, ordinal := 0, source_path := "a.pdf", status := .pending,
        attempt := 0, started_at := none, finished_at := none,
        heartbeat_at := none, last_error := none }] }

/-- The item the C7 witness run claims. -/
def c7item : IngestTaskItem :=
  { id := 1, ordinal := 0, source_path := "a.pdf", status := .running,
    attempt := 1, started_at := some 4, finished_at := none,
    heartbeat_at := some 4, last_error := none }

/-- The task-store state right after the C7 witness claim. -/
def c7db1 : TaskDb :=
  (claim_next_ingest_task_item (touch_ingest_task c7db 4) 4).2

/-- Witness chunk for C4. -/
def c4chunk : Chunk := { page := some 1, ordinal := 0, content := "hello world" }

/-- Witness store for C4: one previously indexed document for the path. -/
def c4db : DocStore :=
  { documents := [⟨0, "a.pdf", "a", "oldsha"⟩]
    segments := [⟨1, 0, 0, some 1, "old text"⟩]
    segmentEmbeddings := [⟨1, [1, 2]⟩]
    nextId := 2 }

/-- Witness store for C5: an up-to-date indexed document for `a.pdf`. -/
def c5updb : DocStore :=
  { documents := [⟨0, "a.pdf", "a", "sha-a"⟩]
    segments := [⟨1, 0, 0, some 1, "text"⟩]
    segmentEmbeddings := [⟨1, [1]⟩]
    nextId := 2 }

/-- Witness pipeline environment for C5. -/
def c5env : PdfEnv :=
  { source_path := "a.pdf"
    file_name := "a.pdf"
    file_hash := "sha-a"
    chunking_strategy := "recursive"
    sanitized_chunks := [⟨some 1, 0, "text"⟩]
    extract_output_up_to_date := false
    lm_present := true
    embed := fun texts => .ok (texts.map (fun _ => [0]))
    batch_size_env := none }

/-- Witness store for C9 (full-mode store untouched in extract-only mode). -/
def c9db : DocStore :=
  { documents := [], segments := [], segmentEmbeddings := [], nextId := 0 }

/-- Witness pipeline environment for C9: a PDF that is not up to date and
yields one sanitized chunk. -/
def c9env : PdfEnv :=
  { source_path := "b.pdf"
    file_name := "b.pdf"
    file_hash := "sha-b"
    chunking_strategy := "recursive"
    sanitized_chunks := [⟨some 1, 0, "some text"⟩]
    extract_output_up_to_date := false
    lm_present := false
    embed := fun _ => .error "unused"
    batch_size_env := none }

/-! ## Helper lemmas on the claiming primitive -/

theorem minByOrdinal_eq_none {l : List IngestTaskItem} :
    minByOrdinal l = none ↔ l = [] := by
  cases l with
  | nil => simp [minByOrdinal]
  | cons a rest =>
    constructor
    · intro h
      cases hm : minByOrdinal rest with
      | none => simp [minByOrdinal, hm] at h
      | some b =>
        simp only [minByOrdinal, hm] at h
        split at h <;> simp at h
    · intro h
      cases h

theorem minByOrdinal_mem {l : List IngestTaskItem} {it : IngestTaskItem}
    (h : minByOrdinal l = some it) : it ∈ l := by
  induction l generalizing it with
  | nil => simp [minByOrdinal] at h
  | cons a rest ih =>
    cases hm : minByOrdinal rest with
    | none =>
      simp only [minByOrdinal, hm] at h
      obtain rfl := Option.some.inj h
      exact List.mem_cons_self a rest
    | some b =>
      simp only [minByOrdinal, hm] at h
      by_cases hle : a.ordinal ≤ b.ordinal
      · rw [if_pos hle] at h
        obtain rfl := Option.some.inj h
        exact List.mem_cons_self a rest
      · rw [if_neg hle] at h
        obtain rfl := Option.some.inj h
        exact List.mem_cons_of_mem a (ih hm)

theorem minByOrdinal_le {l : List IngestTaskItem} {it : IngestTaskItem}
    (h : minByOrdinal l = some it) : ∀ j ∈ l, it.ordinal ≤ j.ordinal := by
  induction l generalizing it with
  | nil => simp [minByOrdinal] at h
  | cons a rest ih =>
    cases hm : minByOrdinal rest with
    | none =>
      simp only [minByOrdinal, hm] at h
      obtain rfl := Option.some.inj h
      have hrest : rest = [] := minByOrdinal_eq_none.mp hm
      subst hrest
      intro j hj
      simp at hj
      subst hj
      exact Nat.le_refl _
    | some b =>
      simp only [minByOrdinal, hm] at h
      intro j hj
      rcases List.mem_cons.mp hj with hja | hjr
      · subst hja
        by_cases hle : j.ordinal ≤ b.ordinal
        · rw [if_pos hle] at h
          obtain rfl := Option.some.inj h
          exact Nat.le_refl _
        · rw [if_neg hle] at h
          obtain rfl := Option.some.inj h
          exact Nat.le_of_lt (Nat.lt_of_not_le hle)
      · by_cases hle : a.ordinal ≤ b.ordinal
        · rw [if_pos hle] at h
          obtain rfl := Option.some.inj h
          exact Nat.le_trans hle (ih hm j hjr)
        · rw [if_neg hle] at h
          obtain rfl := Option.some.inj h
          exact ih hm j hjr

theorem mem_pendingItems {items : List IngestTaskItem} {i : IngestTaskItem} :
    i ∈ pendingItems items ↔ i ∈ items ∧ i.status = .pending := by
  simp [pendingItems, List.mem_filter]

theorem claimItem_id (it : IngestTaskItem) (now : Nat) :
    (claimItem it now).id = it.id := rfl

/-! ## C2 — the claiming transition -/

/-- C2: for a task with at least one pending item,
`claim_next_ingest_task_item` picks a pending item of minimal ordinal, sets
its status to `running`, increments `attempt` by exactly one, sets
`started_at` and `heartbeat_at` to now, clears `last_error`, stores the
updated row and returns it, leaving the task row and every other item
unchanged; for a task with no pending item it returns nothing and changes
nothing. -/
theorem claim_next_ingest_task_item_spec (db : TaskDb) (now : Nat) :
    ((∃ i ∈ db.items, i.status = .pending) →
      ∃ it ∈ db.items, it.status = .pending ∧
        (∀ j ∈ db.items, j.status = .pending → it.ordinal ≤ j.ordinal) ∧
        ∃ r db', claim_next_ingest_task_item db now = (some r, db') ∧
          r.id = it.id ∧ r.status = .running ∧ r.attempt = it.attempt + 1 ∧
          r.started_at = some now ∧ r.heartbeat_at = some now ∧
          r.last_error = none ∧ r ∈ db'.items ∧ db'.task = db.task ∧
          (∀ j ∈ db.items, j.id ≠ it.id → j ∈ db'.items))
    ∧ ((∀ i ∈ db.items, i.status ≠ .pending) →
        claim_next_ingest_task_item db now = (none, db)) := by
  constructor
  · rintro ⟨i, hi, hip⟩
    have hne : pendingItems db.items ≠ [] := by
      intro hnil
      have : i ∈ pendingItems db.items := mem_pendingItems.mpr ⟨hi, hip⟩
      rw [hnil] at this
      cases this
    cases hm : minByOrdinal (pendingItems db.items) with
    | none => exact absurd (minByOrdinal_eq_none.mp hm) hne
    | some it =>
      have hmem := mem_pendingItems.mp (minByOrdinal_mem hm)
      refine ⟨it, hmem.1, hmem.2, ?_, ?_⟩
      · intro j hj hjp
        exact minByOrdinal_le hm j (mem_pendingItems.mpr ⟨hj, hjp⟩)
      · have hdb' : claim_next_ingest_task_item db now =
            (some (claimItem it now),
             ⟨db.task, db.items.map
               (fun j => if j.id = it.id then claimItem it now else j)⟩) := by
          unfold claim_next_ingest_task_item
          rw [hm]
        refine ⟨claimItem it now,
          ⟨db.task, db.items.map
            (fun j => if j.id = it.id then claimItem it now else j)⟩,
          hdb', rfl, rfl, rfl, rfl, rfl, rfl, ?_, rfl, ?_⟩
        · exact List.mem_map.mpr ⟨it, hmem.1, by simp⟩
        · intro j hj hjd
          exact List.mem_map.mpr ⟨j, hj, by simp [hjd]⟩
  · intro hall
    have hnil : pendingItems db.items = [] := by
      apply List.filter_eq_nil_iff.mpr
      intro i hi
      simpa using hall i hi
    unfold claim_next_ingest_task_item
    rw [hnil]
    rfl

/-- Witness for C2 at the concrete state `c2db`. -/
theorem claim_next_ingest_task_item_spec_witness :
    ∃ it ∈ c2db.items, it.status = .pending ∧
      (∀ j ∈ c2db.items, j.status = .pending → it.ordinal ≤ j.ordinal) ∧
      ∃ r db', claim_next_ingest_task_item c2db 5 = (some r, db') ∧
        r.id = it.id ∧ r.status = .running ∧ r.attempt = it.attempt + 1 ∧
        r.started_at = some 5 ∧ r.heartbeat_at = some 5 ∧
        r.last_error = none ∧ r ∈ db'.items ∧ db'.task = c2db.task ∧
        (∀ j ∈ c2db.items, j.id ≠ it.id → j ∈ db'.items) :=
  (claim_next_ingest_task_item_spec c2db 5).1
    ⟨{ id := 2, ordinal := 1, source_path := "b.pdf", status := .pending,
       attempt := 0, started_at := none, finished_at := none,
       heartbeat_at := none, last_error := none }, by decide, by decide⟩

/-! ## C3 — the completion predicate -/

theorem ingestTaskDone_iff {items : List IngestTaskItem} :
    ingestTaskDone items = true ↔
      ((∀ i ∈ items, i.status ≠ .pending ∧ i.status ≠ .running)
        ∧ ∀ i ∈ items, i.status ≠ .failed) := by
  unfold ingestTaskDone
  simp only [Bool.and_eq_true, Bool.not_eq_true', List.any_eq_false, Bool.not_eq_true,
    Bool.or_eq_false_iff, decide_eq_false_iff_not]

/-- C3: for a task in status `running`, `mark_ingest_task_completed_if_done`
transitions the task to `completed` exactly when no item is `pending` or
`running` and no item is `failed`; in particular a task whose items are all
`completed` or `skipped` completes, and a task with a `failed` item is left
unchanged. -/
theorem mark_ingest_task_completed_if_done_spec (db : TaskDb) (now : Nat)
    (h : db.task.status = .running) :
    (((mark_ingest_task_completed_if_done db now).1 = true
        ∧ ((mark_ingest_task_completed_if_done db now).2).task.status = .completed)
      ↔ ((∀ i ∈ db.items, i.status ≠ .pending ∧ i.status ≠ .running)
          ∧ ∀ i ∈ db.items, i.status ≠ .failed))
    ∧ ((∀ i ∈ db.items, i.status = .completed ∨ i.status = .skipped) →
        ((mark_ingest_task_completed_if_done db now).2).task.status = .completed)
    ∧ ((∃ i ∈ db.items, i.status = .failed) →
        mark_ingest_task_completed_if_done db now = (false, db)) := by
  by_cases hd : ingestTaskDone db.items = true
  · have hres : mark_ingest_task_completed_if_done db now =
        (true,
         { db with
           task := { db.task with
             status := .completed
             finished_at := some now
             heartbeat_at := some now
             last_error := none } }) := by
      unfold mark_ingest_task_completed_if_done
      rw [if_pos ⟨h, hd⟩]
    refine ⟨?_, ?_, ?_⟩
    · rw [hres]
      simpa using ingestTaskDone_iff.mp hd
    · intro _
      rw [hres]
    · rintro ⟨i, hi, hif⟩
      exact absurd hif ((ingestTaskDone_iff.mp hd).2 i hi)
  · have hres : mark_ingest_task_completed_if_done db now = (false, db) := by
      unfold mark_ingest_task_completed_if_done
      rw [if_neg]
      rintro ⟨-, hc⟩
      exact hd hc
    refine ⟨?_, ?_, ?_⟩
    · rw [hres]
      constructor
      · rintro ⟨hc, -⟩
        exact absurd hc (by simp)
      · intro hc
        exact absurd (ingestTaskDone_iff.mpr hc) hd
    · intro hall
      exfalso
      apply hd
      apply ingestTaskDone_iff.mpr
      constructor
      · intro i hi
        rcases hall i hi with hc | hs
        · rw [hc]; exact ⟨by simp, by simp⟩
        · rw [hs]; exact ⟨by simp, by simp⟩
      · intro i hi
        rcases hall i hi with hc | hs
        · rw [hc]; simp
        · rw [hs]; simp
    · intro _
      exact hres

/-- Witness for C3 at the concrete state `c3db`. -/
theorem mark_ingest_task_completed_if_done_spec_witness :
    ((mark_ingest_task_completed_if_done c3db 9).2).task.status = .completed :=
  (mark_ingest_task_completed_if_done_spec c3db 9 rfl).2.1 (by decide)

/-! ## C10 — terminal item marks require a running item -/

/-- C10: when every item carrying the target id is not in status `running`,
each of the three terminal item marks (`completed`, `failed`, `skipped`)
leaves the store entirely unchanged; an item therefore reaches a terminal
status only from `running`, and a terminal mark is never overwritten by a
later terminal mark. -/
theorem mark_item_terminal_only_from_running (db : TaskDb) (task_item_id : Nat)
    (e1 e2 : String) (now : Nat)
    (h : ∀ it ∈ db.items, it.id = task_item_id → it.status ≠ .running) :
    mark_ingest_task_item_completed db task_item_id now = db
    ∧ mark_ingest_task_item_failed db task_item_id e1 now = db
    ∧ mark_ingest_task_item_skipped db task_item_id e2 now = db := by
  have hguard : ∀ it ∈ db.items, ¬(it.id = task_item_id ∧ it.status = .running) := by
    rintro it hit ⟨h1, h2⟩
    exact h it hit h1 h2
  refine ⟨?_, ?_, ?_⟩
  · unfold mark_ingest_task_item_completed
    rw [List.map_congr_left (fun a ha => if_neg (hguard a ha)), List.map_id']
  · unfold mark_ingest_task_item_failed
    rw [List.map_congr_left (fun a ha => if_neg (hguard a ha)), List.map_id']
  · unfold mark_ingest_task_item_skipped
    rw [List.map_congr_left (fun a ha => if_neg (hguard a ha)), List.map_id']

/-- Witness for C10: marking the already-completed item 1 of `c10db` failed,
skipped or completed again changes nothing. -/
theorem mark_item_terminal_only_from_running_witness :
    mark_ingest_task_item_completed c10db 1 8 = c10db
    ∧ mark_ingest_task_item_failed c10db 1 "late error" 8 = c10db
    ∧ mark_ingest_task_item_skipped c10db 1 "late skip" 8 = c10db :=
  mark_item_terminal_only_from_running c10db 1 "late error" "late skip" 8 (by decide)

/-! ## C6 — resume recovery -/

/-- C6: whenever `prepare_ingest_task_run` accepts a run (in particular when
resuming after a prior fail-strategy failure), every item in status
`running` or `failed` is reset to `pending` with its `attempt` counter
unchanged and `last_error` set to the stored error or, when it was absent,
the non-null recovery marker; every other item is untouched and the task is
set to `running`. -/
theorem prepare_ingest_task_run_recovery_spec (db : TaskDb) (es : RunStrategy)
    (force : Bool) (epm : Option PipelineMode) (eim : Option InputMode)
    (eod : Option String) (now : Nat) (db' : TaskDb)
    (h : prepare_ingest_task_run db es force epm eim eod now = .ok db') :
    db'.task.status = .running
    ∧ (∀ it ∈ db.items, it.status = .running ∨ it.status = .failed →
        ∃ j ∈ db'.items, j.id = it.id ∧ j.status = .pending
          ∧ j.attempt = it.attempt
          ∧ j.last_error = some (it.last_error.getD "Recovered for retry"))
    ∧ (∀ it ∈ db.items, it.status ≠ .running → it.status ≠ .failed →
        it ∈ db'.items) := by
  unfold prepare_ingest_task_run at h
  split at h
  · cases h
  split at h
  · cases h
  split at h
  · cases h
  split at h
  · cases h
  obtain rfl := (Except.ok.inj h).symm
  refine ⟨rfl, ?_, ?_⟩
  · intro it hit hrs
    refine ⟨recoverItem now it, List.mem_map.mpr ⟨it, hit, rfl⟩, ?_⟩
    unfold recoverItem
    rw [if_pos hrs]
    exact ⟨rfl, rfl, rfl, rfl⟩
  · intro it hit h1 h2
    have hrec : recoverItem now it = it := by
      unfold recoverItem
      rw [if_neg]
      rintro (hr | hf)
      · exact h1 hr
      · exact h2 hf
    exact List.mem_map.mpr ⟨it, hit, hrec⟩

/-- Witness for C6: resuming `c6db` recovers the running item 1 back to
pending with `attempt` preserved and the recovery marker stored. -/
theorem prepare_ingest_task_run_recovery_spec_witness :
    ∃ j ∈ c6dbAfter.items, j.id = c6item1.id ∧ j.status = .pending
      ∧ j.attempt = c6item1.attempt
      ∧ j.last_error = some (c6item1.last_error.getD "Recovered for retry") :=
  (prepare_ingest_task_run_recovery_spec c6db .fail false none none none 7
    c6dbAfter rfl).2.1 c6item1 (by decide) (Or.inl rfl)

/-! ## C8 — resume rejection -/

/-- C8: `prepare_ingest_task_run` rejects with an error every resume of a
completed task, and every resume whose expected pipeline mode or input mode
disagrees with the stored task. In the embedding, as in the source, these
checks precede the item update statement, so a rejected run leaves every
item row untouched (the `error` result carries no successor state). -/
theorem prepare_ingest_task_run_rejection_spec (db : TaskDb) (es : RunStrategy)
    (force : Bool) (eod : Option String) (now : Nat) :
    (db.task.status = .completed →
      ∀ epm eim, ∃ e,
        prepare_ingest_task_run db es force epm eim eod now = .error e)
    ∧ (db.task.status ≠ .completed →
      ∀ m, m ≠ db.task.pipeline_mode →
      ∀ eim, ∃ e,
        prepare_ingest_task_run db es force (some m) eim eod now = .error e)
    ∧ (db.task.status ≠ .completed →
      ∀ m', m' ≠ db.task.input_mode →
      ∃ e,
        prepare_ingest_task_run db es force none (some m') eod now = .error e)
    ∧ (db.task.status ≠ .completed →
      ∀ m', m' ≠ db.task.input_mode →
      ∃ e,
        prepare_ingest_task_run db es force (some db.task.pipeline_mode)
          (some m') eod now = .error e) := by
  refine ⟨?_, ?_, ?_, ?_⟩
  · intro hc epm eim
    refine ⟨"Ingest task is already completed", ?_⟩
    unfold prepare_ingest_task_run
    rw [if_pos hc]
  · intro hne m hm eim
    refine ⟨"Ingest task mode mismatch", ?_⟩
    unfold prepare_ingest_task_run
    rw [if_neg hne]
    have hc2 : ((some m).elim false
        (fun x => !(decide (x = db.task.pipeline_mode)))) = true := by
      simp [hm]
    rw [if_pos hc2]
  · intro hne m' hm'
    refine ⟨"Ingest task input mismatch", ?_⟩
    unfold prepare_ingest_task_run
    rw [if_neg hne]
    have hc2 : ((none : Option PipelineMode).elim false
        (fun x => !(decide (x = db.task.pipeline_mode)))) = false := rfl
    rw [hc2]
    rw [if_neg (by simp)]
    have hc3 : ((some m').elim false
        (fun x => !(decide (x = db.task.input_mode)))) = true := by
      simp [hm']
    rw [if_pos hc3]
  · intro hne m' hm'
    refine ⟨"Ingest task input mismatch", ?_⟩
    unfold prepare_ingest_task_run
    rw [if_neg hne]
    have hc2 : ((some db.task.pipeline_mode).elim false
        (fun x => !(decide (x = db.task.pipeline_mode)))) = false := by
      simp
    rw [hc2]
    rw [if_neg (by simp)]
    have hc3 : ((some m').elim false
        (fun x => !(decide (x = db.task.input_mode)))) = true := by
      simp [hm']
    rw [if_pos hc3]

/-- Witness for C8: resuming the completed task `c8db` errors, and resuming
the full-mode task `c8dbRunning` with expected mode `extract_only` errors. -/
theorem prepare_ingest_task_run_rejection_spec_witness :
    (∃ e, prepare_ingest_task_run c8db .fail false none none none 3 = .error e)
    ∧ ∃ e, prepare_ingest_task_run c8dbRunning .fail false
        (some .extract_only) (some .pdf) none 3 = .error e :=
  ⟨(prepare_ingest_task_run_rejection_spec c8db .fail false none 3).1
      rfl none none,
   (prepare_ingest_task_run_rejection_spec c8dbRunning .fail false none 3).2.1
      (by decide) .extract_only (by decide) (some .pdf)⟩

/-! ## C7 — failure policy of the orchestrator loop -/

theorem claim_next_some {db : TaskDb} {now : Nat} {item : IngestTaskItem}
    {db' : TaskDb} (h : claim_next_ingest_task_item db now = (some item, db')) :
    item ∈ db'.items ∧ item.status = .running ∧ db'.task = db.task := by
  unfold claim_next_ingest_task_item at h
  cases hm : minByOrdinal (pendingItems db.items) with
  | none =>
    rw [hm] at h
    simp at h
  | some it =>
    rw [hm] at h
    simp only [Prod.mk.injEq] at h
    obtain ⟨h1, h2⟩ := h
    obtain rfl := Option.some.inj h1
    subst h2
    have hmem : it ∈ db.items := (mem_pendingItems.mp (minByOrdinal_mem hm)).1
    refine ⟨?_, rfl, rfl⟩
    exact List.mem_map.mpr ⟨it, hmem, by simp⟩

/-- C7: when the pipeline for a claimed item raises, the orchestrator loop
body under `error_strategy=skip` marks that item `skipped` with the error
text, leaves the task status untouched, and continues the loop; under
`error_strategy=fail` it marks the item `failed`, marks the task `failed`
with the error, and stops the loop propagating the error to the caller. -/
theorem run_ingest_task_failure_policy_spec (env : RunEnv)
    (input_mode : InputMode) (now fuel : Nat) (db : TaskDb)
    (item : IngestTaskItem) (db1 : TaskDb) (e : PyExc)
    (hclaim : claim_next_ingest_task_item (touch_ingest_task db now) now
      = (some item, db1))
    (hfile : env.fileExists item.source_path = true)
    (hproc : env.process item = .err e) :
    (∃ db2, run_ingest_task_step env input_mode .skip now db = .continued db2
      ∧ (∃ j ∈ db2.items, j.id = item.id ∧ j.status = .skipped
          ∧ j.last_error = some (exception_text e))
      ∧ db2.task.status = db.task.status
      ∧ run_ingest_task env input_mode .skip now (fuel + 1) db
          = run_ingest_task env input_mode .skip now fuel db2)
    ∧ (∃ db2, run_ingest_task_step env input_mode .fail now db
        = .halted db2 (exception_text e)
      ∧ (∃ j ∈ db2.items, j.id = item.id ∧ j.status = .failed
          ∧ j.last_error = some (exception_text e))
      ∧ db2.task.status = .failed
      ∧ db2.task.last_error = some (exception_text e)
      ∧ run_ingest_task env input_mode .fail now (fuel + 1) db
          = (db2, some (exception_text e))) := by
  obtain ⟨hmem, hrun, htask⟩ := claim_next_some hclaim
  have hstep : ∀ strat, run_ingest_task_step env input_mode strat now db =
      (match strat with
       | .skip => .continued
          (mark_ingest_task_item_skipped db1 item.id (exception_text e) now)
       | .fail => .halted
          (mark_ingest_task_failed
            (mark_ingest_task_item_failed db1 item.id (exception_text e) now)
            (exception_text e) now)
          (exception_text e)) := by
    intro strat
    simp only [run_ingest_task_step]
    rw [hclaim]
    cases strat <;> simp [hfile, hproc]
  constructor
  · refine ⟨mark_ingest_task_item_skipped db1 item.id (exception_text e) now,
      hstep .skip, ?_, ?_, ?_⟩
    · refine ⟨{ item with
          status := .skipped
          finished_at := some now
          heartbeat_at := some now
          last_error := some (exception_text e) }, ?_, rfl, rfl, rfl⟩
      exact List.mem_map.mpr ⟨item, hmem, by rw [if_pos ⟨rfl, hrun⟩]⟩
    · show db1.task.status = db.task.status
      rw [htask]
      rfl
    · simp only [run_ingest_task]
      rw [hstep .skip]
  · refine ⟨mark_ingest_task_failed
        (mark_ingest_task_item_failed db1 item.id (exception_text e) now)
        (exception_text e) now,
      hstep .fail, ?_, rfl, rfl, ?_⟩
    · refine ⟨{ item with
          status := .failed
          finished_at := some now
          heartbeat_at := some now
          last_error := some (exception_text e) }, ?_, rfl, rfl, rfl⟩
      exact List.mem_map.mpr ⟨item, hmem, by rw [if_pos ⟨rfl, hrun⟩]⟩
    · simp only [run_ingest_task]
      rw [hstep .fail]

/-- Witness for C7 at the concrete state `c7db` under both strategies. -/
theorem run_ingest_task_failure_policy_spec_witness :
    (∃ db2, run_ingest_task_step c7env .pdf .skip 4 c7db = .continued db2
      ∧ (∃ j ∈ db2.items, j.id = c7item.id ∧ j.status = .skipped
          ∧ j.last_error = some (exception_text c7e))
      ∧ db2.task.status = c7db.task.status
      ∧ run_ingest_task c7env .pdf .skip 4 1 c7db
          = run_ingest_task c7env .pdf .skip 4 0 db2)
    ∧ (∃ db2, run_ingest_task_step c7env .pdf .fail 4 c7db
        = .halted db2 (exception_text c7e)
      ∧ (∃ j ∈ db2.items, j.id = c7item.id ∧ j.status = .failed
          ∧ j.last_error = some (exception_text c7e))
      ∧ db2.task.status = .failed
      ∧ db2.task.last_error = some (exception_text c7e)
      ∧ run_ingest_task c7env .pdf .fail 4 1 c7db
          = (db2, some (exception_text c7e))) :=
  run_ingest_task_failure_policy_spec c7env .pdf 4 0 c7db c7item c7db1 c7e
    rfl rfl rfl

/-! ## C4 — idempotent replace: helper lemmas -/

theorem buildSegmentRows_length (docId : Nat) (chunks : List Chunk) :
    ∀ nid, (buildSegmentRows docId nid chunks).length = chunks.length := by
  induction chunks with
  | nil => intro nid; rfl
  | cons c rest ih =>
    intro nid
    simp only [buildSegmentRows, List.length_cons, ih]

theorem buildSegmentRows_mem (docId : Nat) (chunks : List Chunk) :
    ∀ nid s, s ∈ buildSegmentRows docId nid chunks →
      s.document_id = docId ∧ nid ≤ s.id ∧ s.id < nid + chunks.length := by
  induction chunks with
  | nil =>
    intro nid s hs
    simp [buildSegmentRows] at hs
  | cons c rest ih =>
    intro nid s hs
    simp only [buildSegmentRows, List.mem_cons] at hs
    rcases hs with rfl | hs
    · refine ⟨rfl, Nat.le_refl _, ?_⟩
      simp only [List.length_cons]
      omega
    · obtain ⟨h1, h2, h3⟩ := ih (nid + 1) s hs
      refine ⟨h1, by omega, ?_⟩
      simp only [List.length_cons]
      omega

theorem buildEmbeddingRows_length (embs : List (List Int)) :
    ∀ nid, (buildEmbeddingRows nid embs).length = embs.length := by
  induction embs with
  | nil => intro nid; rfl
  | cons v rest ih =>
    intro nid
    simp only [buildEmbeddingRows, List.length_cons, ih]

theorem buildEmbeddingRows_mem (embs : List (List Int)) :
    ∀ nid e, e ∈ buildEmbeddingRows nid embs →
      nid ≤ e.segment_id ∧ e.segment_id < nid + embs.length := by
  induction embs with
  | nil =>
    intro nid e he
    simp [buildEmbeddingRows] at he
  | cons v rest ih =>
    intro nid e he
    simp only [buildEmbeddingRows, List.mem_cons] at he
    rcases he with rfl | he
    · refine ⟨Nat.le_refl _, ?_⟩
      simp only [List.length_cons]
      omega
    · obtain ⟨h1, h2⟩ := ih (nid + 1) e he
      refine ⟨by omega, ?_⟩
      simp only [List.length_cons]
      omega

theorem buildSegmentRows_filter_id (docId : Nat) (chunks : List Chunk) :
    ∀ nid m, nid ≤ m → m < nid + chunks.length →
      ((buildSegmentRows docId nid chunks).filter
        (fun s => decide (s.id = m) && decide (s.document_id = docId))).length
        = 1 := by
  induction chunks with
  | nil =>
    intro nid m h1 h2
    simp only [List.length_nil] at h2
    omega
  | cons c rest ih =>
    intro nid m h1 h2
    by_cases hm : m = nid
    · subst hm
      have htail : (buildSegmentRows docId (m + 1) rest).filter
          (fun s => decide (s.id = m) && decide (s.document_id = docId)) = [] := by
        apply List.filter_eq_nil_iff.mpr
        intro s hs
        have hb := (buildSegmentRows_mem docId rest (m + 1) s hs).2.1
        simp only [Bool.and_eq_true, decide_eq_true_eq, not_and]
        intro hid
        omega
      simp only [buildSegmentRows, List.filter_cons]
      rw [if_pos (by simp), htail]
      rfl
    · simp only [buildSegmentRows, List.filter_cons]
      rw [if_neg (by simp; intro h; exact absurd h.symm hm)]
      apply ih (nid + 1) m (by omega)
      simp only [List.length_cons] at h2
      omega

theorem sum_map_ones {α : Type} (f : α → Nat) :
    ∀ l : List α, (∀ x ∈ l, f x = 1) → (l.map f).sum = l.length := by
  intro l
  induction l with
  | nil => intro _; rfl
  | cons a t ih =>
    intro h
    simp only [List.map_cons, List.sum_cons, List.length_cons,
      h a (List.mem_cons_self a t),
      ih (fun x hx => h x (List.mem_cons_of_mem a hx))]
    omega

theorem deleteForPath_facts (db : DocStore) (source_path : String)
    (hwf : DocStore.WF db) :
    (deleteForPath db source_path).nextId = db.nextId
    ∧ (∀ d ∈ (deleteForPath db source_path).documents,
        d.id < db.nextId ∧ d.source_path ≠ source_path)
    ∧ (∀ s ∈ (deleteForPath db source_path).segments,
        s.id < db.nextId ∧ s.document_id < db.nextId)
    ∧ (∀ e ∈ (deleteForPath db source_path).segmentEmbeddings,
        e.segment_id < db.nextId) := by
  obtain ⟨hd, hs, he, hnd⟩ := hwf
  cases hf : db.documents.find? (fun d => decide (d.source_path = source_path)) with
  | none =>
    simp only [deleteForPath, hf]
    refine ⟨trivial, ?_, fun s hsm => hs s hsm, fun e hem => he e hem⟩
    intro d hdm
    refine ⟨hd d hdm, ?_⟩
    have := List.find?_eq_none.mp hf d hdm
    simpa using this
  | some row =>
    have hrowmem : row ∈ db.documents := List.mem_of_find?_eq_some hf
    have hrowp : row.source_path = source_path := by
      have := List.find?_some hf
      simpa using this
    simp only [deleteForPath, hf]
    refine ⟨rfl, ?_, ?_, ?_⟩
    · intro d hdm
      simp only [deleteDocumentCascade, List.mem_filter] at hdm
      obtain ⟨hdm, hdid⟩ := hdm
      refine ⟨hd d hdm, ?_⟩
      intro hpath
      have hdr : d = row :=
        List.inj_on_of_nodup_map hnd hdm hrowmem (by rw [hpath, hrowp])
      subst hdr
      simp at hdid
    · intro s hsm
      simp only [deleteDocumentCascade, List.mem_filter] at hsm
      exact hs s hsm.1
    · intro e hem
      simp only [deleteDocumentCascade, List.mem_filter] at hem
      exact he e hem.1

/-- C4: `replace_document_content` rejects an empty chunk list and a
chunk/embedding count mismatch with an error — raised before any database
work, so an `error` result corresponds to a run with the prior stored state
intact — and on success with N chunks and N embeddings the stored document
for the source path afterwards reports
`segment_count = embedding_count = N`. -/
theorem replace_document_content_spec (db : DocStore)
    (source_path title sha256 : String) (chunks : List Chunk)
    (embeddings : List (List Int)) (hwf : DocStore.WF db) :
    ((chunks = [] ∨ chunks.length ≠ embeddings.length) →
      ∃ m, replace_document_content db source_path title sha256 chunks embeddings
        = .error m)
    ∧ (chunks ≠ [] → chunks.length = embeddings.length →
      ∃ did db1,
        replace_document_content db source_path title sha256 chunks embeddings
          = .ok (did, db1)
        ∧ ∃ st, get_document_sync_state db1 source_path = some st
            ∧ st.document_id = did ∧ st.sha256 = sha256
            ∧ st.segment_count = chunks.length
            ∧ st.embedding_count = chunks.length) := by
  constructor
  · intro hbad
    by_cases hnil : chunks = []
    · refine ⟨"Cannot persist a document without chunks.", ?_⟩
      unfold replace_document_content
      rw [if_pos (by simp [hnil])]
    · have hlen : chunks.length ≠ embeddings.length := hbad.resolve_left hnil
      refine ⟨"Chunks and embeddings count mismatch.", ?_⟩
      unfold replace_document_content
      rw [if_neg (by simp [hnil]), if_pos (by simp [hlen])]
  · intro hne hlen
    obtain ⟨hnid, hdocs0, hsegs0, hembs0⟩ := deleteForPath_facts db source_path hwf
    set db0 := deleteForPath db source_path with hdb0def
    set newDoc : DocRow := ⟨db0.nextId, source_path, title, sha256⟩ with hnewDoc
    set segRows := buildSegmentRows db0.nextId (db0.nextId + 1) chunks with hsegRows
    set embRows := buildEmbeddingRows (db0.nextId + 1) embeddings with hembRows
    set db1 : DocStore := ⟨db0.documents ++ [newDoc], db0.segments ++ segRows,
      db0.segmentEmbeddings ++ embRows, db0.nextId + 1 + chunks.length⟩ with hdb1
    have hres : replace_document_content db source_path title sha256 chunks
        embeddings = .ok (db0.nextId, db1) := by
      unfold replace_document_content
      rw [if_neg (by simp [hne]), if_neg (by simp [hlen])]
    have hfind : db1.documents.find?
        (fun d => decide (d.source_path = source_path)) = some newDoc := by
      have h1 : db0.documents.find?
          (fun d => decide (d.source_path = source_path)) = none :=
        List.find?_eq_none.mpr (fun d hd => by simp [(hdocs0 d hd).2])
      rw [hdb1]
      simp only [List.find?_append, h1, Option.none_or]
      simp [hnewDoc]
    have hsegcount : segmentCountFor db1 db0.nextId = chunks.length := by
      unfold segmentCountFor
      rw [hdb1]
      simp only [List.filter_append]
      have h1 : db0.segments.filter
          (fun s => decide (s.document_id = db0.nextId)) = [] := by
        apply List.filter_eq_nil_iff.mpr
        intro s hs
        have hlt := (hsegs0 s hs).2
        simp only [decide_eq_true_eq]
        omega
      have h2 : segRows.filter
          (fun s => decide (s.document_id = db0.nextId)) = segRows := by
        apply List.filter_eq_self.mpr
        intro s hs
        have hdid := (buildSegmentRows_mem db0.nextId chunks (db0.nextId + 1)
          s (by rwa [hsegRows] at hs)).1
        simp [hdid]
      rw [h1, h2, List.nil_append, hsegRows, buildSegmentRows_length]
    have hembcount : embeddingCountFor db1 db0.nextId = chunks.length := by
      unfold embeddingCountFor
      rw [hdb1]
      simp only [List.map_append, List.sum_append]
      have hold : ∀ e ∈ db0.segmentEmbeddings,
          ((db0.segments ++ segRows).filter
            (fun s => decide (s.id = e.segment_id)
              && decide (s.document_id = db0.nextId))).length = 0 := by
        intro e he
        have helt := hembs0 e he
        rw [List.filter_append]
        have h1 : db0.segments.filter
            (fun s => decide (s.id = e.segment_id)
              && decide (s.document_id = db0.nextId)) = [] := by
          apply List.filter_eq_nil_iff.mpr
          intro s hs
          have hlt := (hsegs0 s hs).2
          simp only [Bool.and_eq_true, decide_eq_true_eq, not_and]
          intro _
          omega
        have h2 : segRows.filter
            (fun s => decide (s.id = e.segment_id)
              && decide (s.document_id = db0.nextId)) = [] := by
          apply List.filter_eq_nil_iff.mpr
          intro s hs
          have hb := (buildSegmentRows_mem db0.nextId chunks (db0.nextId + 1)
            s (by rwa [hsegRows] at hs)).2.1
          simp only [Bool.and_eq_true, decide_eq_true_eq, not_and]
          intro hid
          omega
        rw [h1, h2]
        rfl
      have hsum0 : ((db0.segmentEmbeddings).map (fun e =>
          ((db0.segments ++ segRows).filter
            (fun s => decide (s.id = e.segment_id)
              && decide (s.document_id = db0.nextId))).length)).sum = 0 := by
        apply List.sum_eq_zero
        intro x hx
        obtain ⟨e, he, rfl⟩ := List.mem_map.mp hx
        exact hold e he
      have hnew : ∀ e ∈ embRows,
          ((db0.segments ++ segRows).filter
            (fun s => decide (s.id = e.segment_id)
              && decide (s.document_id = db0.nextId))).length = 1 := by
        intro e he
        obtain ⟨hlo, hhi⟩ := buildEmbeddingRows_mem embeddings (db0.nextId + 1)
          e (by rwa [hembRows] at he)
        rw [List.filter_append]
        have h1 : db0.segments.filter
            (fun s => decide (s.id = e.segment_id)
              && decide (s.document_id = db0.nextId)) = [] := by
          apply List.filter_eq_nil_iff.mpr
          intro s hs
          have hlt := (hsegs0 s hs).1
          simp only [Bool.and_eq_true, decide_eq_true_eq, not_and]
          intro hid
          omega
        rw [h1, List.nil_append, hsegRows]
        exact buildSegmentRows_filter_id db0.nextId chunks (db0.nextId + 1)
          e.segment_id hlo (by omega)
      have hsumNew : (embRows.map (fun e =>
          ((db0.segments ++ segRows).filter
            (fun s => decide (s.id = e.segment_id)
              && decide (s.document_id = db0.nextId))).length)).sum
          = embRows.length :=
        sum_map_ones _ embRows hnew
      rw [hsum0, hsumNew, hembRows, buildEmbeddingRows_length]
      omega
    refine ⟨db0.nextId, db1, hres,
      ⟨db0.nextId, sha256, segmentCountFor db1 db0.nextId,
        embeddingCountFor db1 db0.nextId⟩, ?_, rfl, rfl, hsegcount, hembcount⟩
    unfold get_document_sync_state
    rw [hfind]
    rfl

/-- Witness for C4: an empty chunk list is rejected, and a 1-chunk/1-embedding
replace leaves `segment_count = embedding_count = 1`. -/
theorem replace_document_content_spec_witness :
    (∃ m, replace_document_content c4db "a.pdf" "a" "newsha" [] [] = .error m)
    ∧ ∃ did db1,
        replace_document_content c4db "a.pdf" "a" "newsha" [c4chunk] [[3, 4]]
          = .ok (did, db1)
        ∧ ∃ st, get_document_sync_state db1 "a.pdf" = some st
            ∧ st.document_id = did ∧ st.sha256 = "newsha"
            ∧ st.segment_count = [c4chunk].length
            ∧ st.embedding_count = [c4chunk].length :=
  ⟨(replace_document_content_spec c4db "a.pdf" "a" "newsha" [] []
      (by unfold DocStore.WF; decide)).1 (Or.inl rfl),
   (replace_document_content_spec c4db "a.pdf" "a" "newsha" [c4chunk] [[3, 4]]
      (by unfold DocStore.WF; decide)).2 (by decide) rfl⟩

/-! ## C5 — the full-mode up-to-date short circuit -/

theorem is_document_up_to_date_iff (db : DocStore) (source_path sha256 : String) :
    is_document_up_to_date db source_path sha256 = true ↔
      ∃ st, get_document_sync_state db source_path = some st
        ∧ st.sha256 = sha256 ∧ 0 < st.segment_count
        ∧ st.segment_count = st.embedding_count := by
  unfold is_document_up_to_date
  cases hg : get_document_sync_state db source_path with
  | none => simp
  | some st =>
    by_cases hsha : st.sha256 = sha256
    · simp [hsha]
    · simp [hsha]

theorem embed_and_store_ok {hd : StoreHandle} {env : PdfEnv} {db : DocStore}
    {chunks : List Chunk} {o : Outcome} {db1 : DocStore}
    (h : embed_and_store hd env db chunks = .ok (o, db1)) : o = .indexed := by
  unfold embed_and_store at h
  split at h
  · cases h
  · split at h
    · cases h
    · split at h
      · cases h
      · split at h
        · cases h
        · simp only [Except.ok.injEq, Prod.mk.injEq] at h
          exact h.1.symm

/-- The intended full-mode logic, under a handle with working psycopg
connections (what `core.db.Db` provides): with `force=false` the outcome is
`up_to_date` exactly when a stored document exists for the source path with
a matching fingerprint and `segment_count = embedding_count > 0`, and with
`force=true` the check is bypassed and the outcome is never `up_to_date`.
The program never runs this instantiation — `cli.py` passes the `Qdrant`
wrapper, see `ingest_pdf_full_qdrant_handle_bug`. -/
theorem ingest_pdf_full_up_to_date_db_handle (env : PdfEnv) (db : DocStore)
    (dir : Option String) :
    ((∃ r, ingest_pdf dbHandle env db false .full dir = .ok r
        ∧ r.outcome = .up_to_date) ↔
      ∃ st, get_document_sync_state db env.source_path = some st
        ∧ st.sha256 = env.file_hash ∧ 0 < st.segment_count
        ∧ st.segment_count = st.embedding_count)
    ∧ (is_document_up_to_date db env.source_path env.file_hash = true →
        ingest_pdf dbHandle env db false .full dir = .ok ⟨.up_to_date, db, none⟩)
    ∧ (∀ r, ingest_pdf dbHandle env db true .full dir = .ok r →
        r.outcome ≠ .up_to_date) := by
  have hunfold : ∀ force : Bool, ingest_pdf dbHandle env db force .full dir =
      if force then ingest_pdf_full_tail dbHandle env db
      else
        if is_document_up_to_date db env.source_path env.file_hash then
          .ok ⟨.up_to_date, db, none⟩
        else ingest_pdf_full_tail dbHandle env db := fun _ => rfl
  have htail : ∀ r, ingest_pdf_full_tail dbHandle env db = .ok r →
      r.outcome ≠ .up_to_date := by
    intro r hr
    unfold ingest_pdf_full_tail at hr
    split at hr
    · cases hr
    · split at hr
      · cases hr
      · rename_i o db1 heq
        obtain rfl := Except.ok.inj hr
        have ho := embed_and_store_ok heq
        subst ho
        simp
  have hpos : is_document_up_to_date db env.source_path env.file_hash = true →
      ingest_pdf dbHandle env db false .full dir = .ok ⟨.up_to_date, db, none⟩ := by
    intro hu
    rw [hunfold false]
    simp [hu]
  have hneg : is_document_up_to_date db env.source_path env.file_hash = false →
      ∀ r, ingest_pdf dbHandle env db false .full dir = .ok r →
        r.outcome ≠ .up_to_date := by
    intro hu r hr
    rw [hunfold false] at hr
    simp only [hu, Bool.false_eq_true, if_false] at hr
    exact htail r hr
  have hforce : ∀ r, ingest_pdf dbHandle env db true .full dir = .ok r →
      r.outcome ≠ .up_to_date := by
    intro r hr
    rw [hunfold true] at hr
    simp only [if_true] at hr
    exact htail r hr
  refine ⟨?_, hpos, hforce⟩
  by_cases hu : is_document_up_to_date db env.source_path env.file_hash = true
  · constructor
    · intro _
      exact (is_document_up_to_date_iff db env.source_path env.file_hash).mp hu
    · intro _
      exact ⟨⟨.up_to_date, db, none⟩, hpos hu, rfl⟩
  · simp only [Bool.not_eq_true] at hu
    constructor
    · rintro ⟨r, hr, ho⟩
      exact absurd ho (hneg hu r hr)
    · intro hst
      have := (is_document_up_to_date_iff db env.source_path env.file_hash).mpr hst
      rw [hu] at this
      cases this

/-- C5 (code bug): `cli.py` passes the `core.qdrant.Qdrant` wrapper as the
document-store argument of `ingest_pdf` and `_embed_and_store`, but
`Qdrant.connect()` returns a `QdrantClient` with no `cursor` attribute and
`Qdrant` has no `connect_tx`, so full-mode processing raises instead of
ever returning `up_to_date`. Evaluated at `c5updb`, a store where the
conditions of the claim all hold (record present, fingerprint match,
`segment_count = embedding_count > 0`): with `force=false` the up-to-date
probe itself raises `AttributeError`, and with `force=true` the run reaches
the document replace and raises there — in both runs the claimed outcome is
unreachable. -/
theorem ingest_pdf_full_qdrant_handle_bug :
    is_document_up_to_date c5updb "a.pdf" "sha-a" = true
    ∧ ingest_pdf qdrantHandle c5env c5updb false .full none
      = .error "AttributeError: QdrantClient object has no attribute cursor"
    ∧ ingest_pdf qdrantHandle c5env c5updb true .full none
      = .error "AttributeError: Qdrant object has no attribute connect_tx" :=
  ⟨rfl, rfl, rfl⟩

/-! ## C9 — the extract-only write call -/

/-- C9 (code bug): the keyword arguments `ingest_pdf` passes to
`write_extract_output` include `raw_contents`, which the function defined in
`extract_output.py` does not accept, so Python keyword binding fails;
consequently an extract-only run on a stale input raises a `TypeError`
instead of writing the chunk file and returning outcome `extracted`. -/
theorem ingest_pdf_extract_only_write_call_bug :
    kwargsBindOk write_extract_output_param_names ingest_pdf_write_call_kwargs
      = false
    ∧ ingest_pdf qdrantHandle c9env c9db false .extract_only
        (some "var/extracted")
      = .error "TypeError: write_extract_output got an unexpected keyword argument raw_contents" :=
  ⟨rfl, rfl⟩

end RagIngest
